import Mathlib

/-!
Verification development for the printmaster structural source-rewriting
scripts (`fix_main_metrics.py`, `fix_test.py`, `fix_test_v2.py`,
`tools/replace_console.py`).

The scripts are Python programs built on `re.sub` / `re.search`.  The shallow
embedding below models:

  * Python strings as `List Char` (`Str`),
  * the regular-expression dialect actually used by the scripts through a
    small backtracking matcher (`mrun`) whose result list is ordered exactly
    by Python's backtracking preference (greedy repetition longest-first,
    alternation left-first, leftmost match),
  * `re.sub` as `reSub` (non-overlapping leftmost matches, scanning resumes
    after each match),
  * the per-file control flow of each script (what is written, when a backup
    is taken) as explicit outcome records / operation traces.

Character classes follow Python's ASCII semantics (`\w` = alphanumeric or
underscore, `\s` = space, tab, newline, carriage return, vertical tab, form
feed); the concrete buffers handled by the scripts and by the theorems below
are ASCII.
-/

set_option maxRecDepth 200000

namespace PrintMaster

abbrev Str := List Char

/-- Python whitespace class `\s` (ASCII): space, tab, newline, CR, VT, FF. -/
def isPySpace (c : Char) : Bool :=
  c == ' ' || c == '\t' || c == '\n' || c == '\r' || c == Char.ofNat 11 || c == Char.ofNat 12

/-- Python word-character class `\w` (ASCII): letters, digits, underscore. -/
def isWordChar (c : Char) : Bool := c.isAlphanum || c == '_'

/-- Concatenate a list of strings. -/
def catLists (xs : List Str) : Str := xs.foldr (fun a b => a ++ b) []

/-- Python `'\n'.join(lines)`. -/
def joinNl (xs : List Str) : Str :=
  match xs with
  | [] => []
  | x :: rest => x ++ (rest.map (fun r => '\n' :: r)).foldr (fun a b => a ++ b) []

/-- Python `s.split('\n')`. -/
def splitNl (s : Str) : List Str := s.splitOn '\n'

/-- Python `s.lstrip()` (default whitespace). -/
def pyLstrip (s : Str) : Str := s.dropWhile isPySpace

/-- Python `s.rstrip()` (default whitespace). -/
def pyRstrip (s : Str) : Str := (s.reverse.dropWhile isPySpace).reverse

/-- Python `s.strip()` (default whitespace). -/
def pyStrip (s : Str) : Str := pyRstrip (pyLstrip s)

/-- Python `s.rstrip(',')`: remove every trailing comma. -/
def rstripComma (s : Str) : Str := (s.reverse.dropWhile (fun c => c == ',')).reverse

/-- Python substring containment `needle in haystack`. -/
def containsSub (haystack needle : Str) : Bool :=
  match haystack with
  | [] => needle.isPrefixOf ([] : Str)
  | _ :: t => needle.isPrefixOf haystack || containsSub t needle

/-- Python `haystack.find(needle)`: index of the leftmost occurrence, or -1. -/
def pyFind (haystack needle : Str) : Int :=
  match haystack with
  | [] => if needle.isPrefixOf ([] : Str) then 0 else -1
  | _ :: t =>
      if needle.isPrefixOf haystack then 0
      else
        match pyFind t needle with
        | -1 => -1
        | i => i + 1

/-- Resolve a Python slice index (possibly negative) against a length. -/
def pyIndex (len : Nat) (i : Int) : Nat :=
  if i < 0 then ((len : Int) + i).toNat else min i.toNat len

/-- Python `s[:i]` for an `Int` index. -/
def pySliceTo (s : Str) (i : Int) : Str := s.take (pyIndex s.length i)

/-- Python `s[i:]` for an `Int` index. -/
def pySliceFrom (s : Str) (i : Int) : Str := s.drop (pyIndex s.length i)

/-- Python `s.replace(old, new)`: leftmost, non-overlapping, scanning resumes
after each replacement.  `fuel` bounds the recursion; it is always called
with `s.length + 1`, which suffices because `old` is non-empty at every call
site. -/
def pyReplaceGo (old new : Str) : Nat → Str → Str
  | 0, s => s
  | _ + 1, [] => []
  | fuel + 1, s@(c :: t) =>
      if old ≠ [] && old.isPrefixOf s then new ++ pyReplaceGo old new fuel (s.drop old.length)
      else c :: pyReplaceGo old new fuel t

/-- Python `s.replace(old, new)`. -/
def pyReplace (s old new : Str) : Str := pyReplaceGo old new (s.length + 1) s

/-! ### Backtracking regex matcher

`mrun re s cs` returns every way the pattern can match a prefix of `s`,
as `(remaining-suffix, captures)` pairs, ordered by Python's backtracking
preference: a greedy repetition lists longer matches first, an alternation
lists its left branch first.  Python's match is the head of this list.
Captured groups are stored newest-first, so `capGet` returns the latest
write, as Python does. -/

abbrev Caps := List (Nat × Str)

/-- Record a capture (latest write shadows earlier ones). -/
def capSet (n : Nat) (v : Str) (cs : Caps) : Caps := (n, v) :: cs

/-- Read a captured group (empty if the group never matched). -/
def capGet (cs : Caps) (n : Nat) : Str :=
  (((cs.find? (fun p => p.1 == n)).map (fun p => p.2))).getD []

/-- Regular-expression syntax actually used by the scripts: literals,
character classes, concatenation, alternation, greedy `*` (with `+` and `?`
as derived forms) and numbered capture groups. -/
inductive RE where
  | eps : RE
  | cls : (Char → Bool) → RE
  | lit : Str → RE
  | seq : RE → RE → RE
  | alt : RE → RE → RE
  | rep : Bool → RE → RE
  | grp : Nat → RE → RE

/-- Iterate a repetition body.  Iterations that consume nothing are cut
(Python terminates a repetition on an empty match), so with
`fuel = s.length + 1` the fuel can never run out.  Greedy order: deeper
iterations first, the empty iteration last. -/
def repRun (g : Bool) (body : Str → Caps → List (Str × Caps)) :
    Nat → Str → Caps → List (Str × Caps)
  | 0, s, cs => [(s, cs)]
  | fuel + 1, s, cs =>
      let step := (body s cs).filter (fun rc => rc.1.length < s.length)
      let deeper := step.flatMap (fun rc => repRun g body fuel rc.1 rc.2)
      if g then deeper ++ [(s, cs)] else (s, cs) :: deeper

/-- All matches of `re` against a prefix of `s`, in backtracking preference
order. -/
def mrun : RE → Str → Caps → List (Str × Caps)
  | .eps, s, cs => [(s, cs)]
  | .cls p, s, cs =>
      match s with
      | [] => []
      | c :: t => if p c then [(t, cs)] else []
  | .lit l, s, cs => if l.isPrefixOf s then [(s.drop l.length, cs)] else []
  | .seq a b, s, cs => (mrun a s cs).flatMap (fun rc => mrun b rc.1 rc.2)
  | .alt a b, s, cs => mrun a s cs ++ mrun b s cs
  | .rep g r, s, cs => repRun g (mrun r) (s.length + 1) s cs
  | .grp n r, s, cs =>
      (mrun r s cs).map (fun rc => (rc.1, capSet n (s.take (s.length - rc.1.length)) rc.2))

/-- Greedy `r*`. -/
def star (r : RE) : RE := .rep true r

/-- Greedy `r+` (= `r r*`). -/
def rplus (r : RE) : RE := .seq r (.rep true r)

/-- Greedy `r?` (prefer present). -/
def ropt (r : RE) : RE := .alt r .eps

/-- The class `\s`. -/
def reS : RE := .cls isPySpace

/-- The pattern `\s*`. -/
def sStar : RE := star reS

/-- The pattern `\s+`. -/
def sPlus : RE := rplus reS

/-- The class `[^}]`. -/
def nonBrace : RE := .cls (fun c => !(c == '}'))

/-- Anchored match attempt at the start of `s` (Python's backtracking picks
the first entry of `mrun`).  Returns (matched, rest, captures). -/
def tryMatch (r : RE) (s : Str) : Option (Str × Str × Caps) :=
  match mrun r s [] with
  | [] => none
  | rc :: _ => some (s.take (s.length - rc.1.length), rc.1, rc.2)

/-- Result of a leftmost search: `s = pre ++ matched ++ rest`. -/
structure FindResult where
  pre : Str
  matched : Str
  rest : Str
  caps : Caps

/-- Shift a search result one position to the right. -/
def shiftFind (c : Char) (o : Option FindResult) : Option FindResult :=
  o.map (fun fr => ⟨c :: fr.pre, fr.matched, fr.rest, fr.caps⟩)

/-- Leftmost match (`re.search`): try each start position left to right. -/
def reFind (r : RE) : Str → Option FindResult
  | [] =>
      match tryMatch r [] with
      | some (m, rest, cs) => some ⟨[], m, rest, cs⟩
      | none => none
  | c :: t =>
      match tryMatch r (c :: t) with
      | some (m, rest, cs) => some ⟨[], m, rest, cs⟩
      | none => shiftFind c (reFind r t)

/-- A piece of a `re.sub` decomposition: text kept verbatim, or a matched
span together with its replacement. -/
inductive Chunk where
  | keep : Str → Chunk
  | subst : Str → Str → Chunk
deriving DecidableEq

/-- The original text of a chunk. -/
def chunkOrig : Chunk → Str
  | .keep t => t
  | .subst o _ => o

/-- The output text of a chunk. -/
def chunkNew : Chunk → Str
  | .keep t => t
  | .subst _ n => n

/-- Whether a chunk lies outside every matched span. -/
def chunkIsKeep : Chunk → Bool
  | .keep _ => true
  | .subst _ _ => false

/-- `re.sub` with a replacement function, as a chunk list: leftmost match,
replace, resume scanning after the match (on an empty match Python inserts
the replacement and copies one character).  `fuel` is always
`s.length + 1`, which cannot run out since every recursive call strictly
shrinks the buffer. -/
def reSubChunks (r : RE) (f : Str → Caps → Str) : Nat → Str → List Chunk
  | 0, s => [.keep s]
  | fuel + 1, s =>
      match reFind r s with
      | none => [.keep s]
      | some fr =>
          match fr.matched with
          | [] =>
              match fr.rest with
              | [] => [.keep fr.pre, .subst [] (f [] fr.caps)]
              | c :: t =>
                  .keep fr.pre :: .subst [] (f [] fr.caps) :: .keep [c] ::
                    reSubChunks r f fuel t
          | _ =>
              .keep fr.pre :: .subst fr.matched (f fr.matched fr.caps) ::
                reSubChunks r f fuel fr.rest

/-- Concatenated original sides of a chunk list. -/
def chunksOrig (cs : List Chunk) : Str := catLists (cs.map chunkOrig)

/-- Concatenated output sides of a chunk list. -/
def chunksNew (cs : List Chunk) : Str := catLists (cs.map chunkNew)

/-- Python `re.sub(pattern, f, s)`. -/
def reSub (r : RE) (f : Str → Caps → Str) (s : Str) : Str :=
  chunksNew (reSubChunks r f (s.length + 1) s)

/-- Python `re.search(pattern, s)` returning the whole result. -/
def reSearch (r : RE) (s : Str) : Option FindResult := reFind r s

/-- Group 1 of a successful `re.search`, the shape every field lookup in the
scripts uses (`m.group(1)` guarded by the search's success). -/
def searchGroup1 (r : RE) (s : Str) : Option Str :=
  (reSearch r s).map (fun fr => capGet fr.caps 1)

/-! ### Embedding of `fix_main_metrics.py` -/

/-- The pattern
`(storageSnapshot\s*:=\s*)&storage\.MetricsSnapshot\{\s+((?:[^}]+\n)+)\s+\}`
of `fix_metrics_snapshot_in_file`. -/
def metricsPat : RE :=
  .seq (.grp 1 (.seq (.lit ( "storageSnapshot".toList))
        (.seq sStar (.seq (.lit ( ":=".toList)) sStar))))
    (.seq (.lit ( "&storage.MetricsSnapshot\x7b".toList))
      (.seq sPlus
        (.seq (.grp 2 (rplus (.seq (rplus nonBrace) (.lit [ '\n' ]))))
          (.seq sPlus (.lit [ '\x7d' ])))))

/-- Does a line remainder match `,?\s*$`: optionally one comma, then only
whitespace to the end. -/
def tailCommaWs (l : Str) : Bool :=
  l.all isPySpace ||
    (match l with
     | c :: t => c == ',' && t.all isPySpace
     | [] => false)

/-- The lazy group `(.+?)` followed by `,?\s*$`: the shortest non-empty
prefix whose remainder matches `,?\s*` up to the end of the line. -/
def lazyCapGo : Str → Option Str
  | [] => none
  | c :: t => if tailCommaWs t then some [c] else (lazyCapGo t).map (fun p => c :: p)

/-- The tail `\s*(.+?),?\s*$` of the field regex, applied to the text after
the colon.  The greedy `\s*` first takes all leading whitespace; if nothing
is left it backtracks by one character so that the mandatory `.+?` can
match, capturing the final whitespace character.  (Faithful for newline-free
input; the callers only pass pieces of a `split('\n')`.) -/
def matchValueRe (rest : Str) : Option Str :=
  match rest.dropWhile isPySpace with
  | [] => rest.getLast?.map (fun c => [c])
  | v => lazyCapGo v

/-- The anchored match `re.match(r'(\w+):\s*(.+?),?\s*$', line)` of
`replace_snapshot`, hand-compiled: `\w+` is greedy and `:` is not a word
character, so the name is exactly the leading word-character run, which must
be followed by a literal colon. -/
def fieldLineMatch (line : Str) : Option (Str × Str) :=
  let name := line.takeWhile isWordChar
  match name, line.dropWhile isWordChar with
  | [], _ => none
  | _, ':' :: rest => (matchValueRe rest).map (fun v => (name, v))
  | _, _ => none

/-- One iteration of the field-extraction loop in `replace_snapshot`: strip
the line, skip empty lines, `//` lines and lines without a colon, then match
the field regex, strip trailing commas from the value and render the
assignment line. -/
def processFieldLine (rawLine : Str) : Option Str :=
  let line := pyStrip rawLine
  if !line.isEmpty && !(( "//".toList).isPrefixOf line) then
    if line.any (fun c => c == ':') then
      match fieldLineMatch line with
      | some (name, value0) =>
          let value := rstripComma value0
          some (( "\t\t\tstorageSnapshot.".toList) ++ name ++ ( " = ".toList) ++ value)
      | none => none
    else none
  else none

/-- The replacement callback `replace_snapshot`. -/
def replace_snapshot (_m : Str) (cs : Caps) : Str :=
  let varDecl := capGet cs 1
  let fieldsBlock := capGet cs 2
  let fieldLines := (splitNl (pyStrip fieldsBlock)).filterMap processFieldLine
  varDecl ++ ( "&storage.MetricsSnapshot\x7b\x7d\n".toList) ++ joinNl fieldLines

/-- The content transformation performed by `fix_metrics_snapshot_in_file`:
`re.sub(pattern, replace_snapshot, content, flags=re.MULTILINE)` (the
`MULTILINE` flag only affects `^`/`$`, which the pattern does not use). -/
def fixMetricsContent (content : Str) : Str := reSub metricsPat replace_snapshot content

/-- The chunk decomposition of the same `re.sub` call. -/
def fixMetricsChunks (content : Str) : List Chunk :=
  reSubChunks metricsPat replace_snapshot (content.length + 1) content

/-- File-system operations a script can perform on one file. -/
inductive FsOp where
  | backupWrite : FsOp
  | fileWrite : FsOp
deriving DecidableEq

/-- File-level model of `fix_metrics_snapshot_in_file`: read the file,
transform the content, then open the file for writing and write — always,
with no backup beforehand. -/
def fix_metrics_snapshot_in_file (content : Str) : Str × List FsOp :=
  (fixMetricsContent content, [FsOp.fileWrite])

/-! ### Embedding of `fix_test_v2.py` (`convert_device_to_helper`) -/

/-- The span pattern `(\w+)\s*:=\s*&Device\{[^}]*(?:\{[^}]*\}[^}]*)*\}`
(the `re.DOTALL` flag only affects `.`, which the pattern does not use). -/
def devicePat : RE :=
  .seq (.grp 1 (rplus (.cls isWordChar)))
    (.seq sStar (.seq (.lit ( ":=".toList)) (.seq sStar
      (.seq (.lit ( "&Device\x7b".toList))
        (.seq (star nonBrace)
          (.seq (star (.seq (.lit [ '\x7b' ])
              (.seq (star nonBrace) (.seq (.lit [ '\x7d' ]) (star nonBrace)))))
            (.lit [ '\x7d' ])))))))

/-- A quoted-field search `Name:\s*"([^"]+)"`, as used for `Serial`, `IP`,
`Manufacturer` and `Model`. -/
def quotedFieldPat (name : Str) : RE :=
  .seq (.lit (name ++ [ ':' ])) (.seq sStar
    (.seq (.lit [ '"' ])
      (.seq (.grp 1 (rplus (.cls (fun c => !(c == '"'))))) (.lit [ '"' ]))))

/-- The search `IsSaved:\s*(\w+)`. -/
def isSavedPat : RE :=
  .seq (.lit ( "IsSaved:".toList)) (.seq sStar (.grp 1 (rplus (.cls isWordChar))))

/-- The extra-field value search `{field}:\s*([^,}]+(?:\{[^}]*\})?)`
(the `re.DOTALL` flag only affects `.`, which the pattern does not use). -/
def extraFieldPat (name : Str) : RE :=
  .seq (.lit (name ++ [ ':' ])) (.seq sStar
    (.grp 1 (.seq (rplus (.cls (fun c => !(c == ',' || c == '}'))))
      (ropt (.seq (.lit [ '\x7b' ]) (.seq (star nonBrace) (.lit [ '\x7d' ])))))))

/-- The field names of the manual-assignment loop, in source order. -/
def extraFieldNames : List Str :=
  [ "DNSServers".toList, "DHCPServer".toList, "Consumables".toList,
    "StatusMessages".toList, "DiscoveryMethod".toList, "WalkFilename".toList,
    "RawData".toList, "Hostname".toList, "Firmware".toList, "MACAddress".toList ]

/-- Extra-value cleanup in `replace_multiline_device`: the captured value is
stripped; if it still contains a newline, `\n\t\t` and then `\n\t` are
replaced by single spaces and the result is stripped again. -/
def cleanExtraValue (v0 : Str) : Str :=
  let v := pyStrip v0
  if v.any (fun c => c == '\n') then
    pyStrip (pyReplace (pyReplace v ( "\n\t\t".toList) [ ' ' ]) ( "\n\t".toList) [ ' ' ])
  else v

/-- The helper-call construction of `replace_multiline_device`: `None` when
`Serial` or `IP` could not be extracted (the caller then returns the span
unchanged), otherwise `newFullTestDevice(...)` when both `Manufacturer` and
`Model` were found and `newTestDevice(...)` otherwise, with the `isSaved`
argument defaulting to `false` and the final argument literally `true`. -/
def deviceConvertCore (varName : Str) (serial ip manufacturer model isSaved : Option Str) :
    Option Str :=
  match serial, ip with
  | some sv, some iv =>
      match manufacturer, model with
      | some mv, some dv =>
          some (varName ++ ( " := newFullTestDevice(\"".toList) ++ sv ++ ( "\", \"".toList)
            ++ iv ++ ( "\", \"".toList) ++ mv ++ ( "\", \"".toList) ++ dv
            ++ ( "\", ".toList) ++ isSaved.getD ( "false".toList) ++ ( ", true)".toList))
      | _, _ =>
          some (varName ++ ( " := newTestDevice(\"".toList) ++ sv ++ ( "\", \"".toList)
            ++ iv ++ ( "\", ".toList) ++ isSaved.getD ( "false".toList) ++ ( ", true)".toList))
  | _, _ => none

/-- The replacement callback `replace_multiline_device`. -/
def replace_multiline_device (m : Str) (cs : Caps) : Str :=
  let varName := if capGet cs 1 = [] then ( "device".toList) else capGet cs 1
  let serial := searchGroup1 (quotedFieldPat ( "Serial".toList)) m
  let ip := searchGroup1 (quotedFieldPat ( "IP".toList)) m
  let manufacturer := searchGroup1 (quotedFieldPat ( "Manufacturer".toList)) m
  let model := searchGroup1 (quotedFieldPat ( "Model".toList)) m
  let isSaved := searchGroup1 isSavedPat m
  match deviceConvertCore varName serial ip manufacturer model isSaved with
  | none => m
  | some helperCall =>
      let additional := extraFieldNames.filterMap (fun fname =>
        (searchGroup1 (extraFieldPat fname) m).map (fun raw =>
          ( "\t".toList) ++ varName ++ [ '.' ] ++ fname ++ ( " = ".toList)
            ++ cleanExtraValue raw))
      if additional ≠ [] then helperCall ++ [ '\n' ] ++ joinNl additional else helperCall

/-- The inline pattern `(store\.Create\(ctx,\s*)&Device\{[^}]+\}`. -/
def inlineDevicePat : RE :=
  .seq (.grp 1 (.seq (.lit ( "store.Create(ctx,".toList)) sStar))
    (.seq (.lit ( "&Device\x7b".toList)) (.seq (rplus nonBrace) (.lit [ '\x7d' ])))

/-- The replacement callback `replace_inline_device` (note the doubled
closing parenthesis of the source's f-strings). -/
def replace_inline_device (m : Str) (cs : Caps) : Str :=
  let pfx := capGet cs 1
  let serial := searchGroup1 (quotedFieldPat ( "Serial".toList)) m
  let ip := searchGroup1 (quotedFieldPat ( "IP".toList)) m
  let manufacturer := searchGroup1 (quotedFieldPat ( "Manufacturer".toList)) m
  let model := searchGroup1 (quotedFieldPat ( "Model".toList)) m
  let isSaved := searchGroup1 isSavedPat m
  match serial, ip with
  | some sv, some iv =>
      match manufacturer, model with
      | some mv, some dv =>
          pfx ++ ( "newFullTestDevice(\"".toList) ++ sv ++ ( "\", \"".toList) ++ iv
            ++ ( "\", \"".toList) ++ mv ++ ( "\", \"".toList) ++ dv ++ ( "\", ".toList)
            ++ isSaved.getD ( "false".toList) ++ ( ", true))".toList)
      | _, _ =>
          pfx ++ ( "newTestDevice(\"".toList) ++ sv ++ ( "\", \"".toList) ++ iv
            ++ ( "\", ".toList) ++ isSaved.getD ( "false".toList) ++ ( ", true))".toList)
  | _, _ => m

/-- The content transformation of `convert_device_to_helper`: the multiline
`re.sub` followed by the `store.Create` `re.sub`. -/
def convert_device_to_helper (content : Str) : Str :=
  let content1 := reSub devicePat replace_multiline_device content
  reSub inlineDevicePat replace_inline_device content1

/-- The chunk decomposition of the multiline-device `re.sub`. -/
def convertDeviceChunks (content : Str) : List Chunk :=
  reSubChunks devicePat replace_multiline_device (content.length + 1) content

/-! ### Embedding of `fix_test.py` -/

/-- The helper block inserted by `add_helper_if_missing` (the triple-quoted
`helpers` string of `fix_test.py`, verbatim). -/
def helpersText : Str :=
  ( "\n// Helper function to create test device with embedded struct\nfunc newTestDevice(serial, ip string, isSaved, visible bool) *Device \x7b\n\td := &Device\x7b\x7d\n\td.Serial = serial\n\td.IP = ip\n\td.IsSaved = isSaved\n\td.Visible = visible\n\treturn d\n\x7d\n\n// Helper function to create test device with more fields\nfunc newFullTestDevice(serial, ip, manufacturer, model string, isSaved, visible bool) *Device \x7b\n\td := &Device\x7b\x7d\n\td.Serial = serial\n\td.IP = ip\n\td.Manufacturer = manufacturer\n\td.Model = model\n\td.IsSaved = isSaved\n\td.Visible = visible\n\treturn d\n\x7d\n\n// Helper function to create test metrics snapshot\nfunc newTestMetrics(serial string, pageCount int) *MetricsSnapshot \x7b\n\tm := &MetricsSnapshot\x7b\x7d\n\tm.Serial = serial\n\tm.Timestamp = time.Now()\n\tm.PageCount = pageCount\n\tm.TonerLevels = make(map[string]interface\x7b\x7d)\n\treturn m\n\x7d\n".toList)

/-- The insertion index `import_end` computed by `add_helper_if_missing`:
the first `\n\nfunc `, else the first `\nfunc `, else -1. -/
def importEnd (content : Str) : Int :=
  let ie0 := pyFind content ( "\n\nfunc ".toList)
  if ie0 = -1 then pyFind content ( "\nfunc ".toList) else ie0

/-- `add_helper_if_missing`: if the content does not contain
`func newTestDevice(`, splice the helper block in at the first `\n\nfunc `
(falling back to the first `\nfunc `).  Python's `find` returns -1 when
neither occurs, and the code then slices with `content[:-1]` /
`content[-1:]`, inserting the block just before the final character. -/
def add_helper_if_missing (content : Str) : Str :=
  if containsSub content ( "func newTestDevice(".toList) then content
  else
    pySliceTo content (importEnd content) ++ helpersText
      ++ pySliceFrom content (importEnd content)

/-- Chain regexes in sequence. -/
def seqAll (rs : List RE) : RE := rs.foldr RE.seq RE.eps

/-- A quoted capture `"([^"]+)"` into group `g`. -/
def qcap (g : Nat) : RE :=
  .seq (.lit [ '"' ])
    (.seq (.grp g (rplus (.cls (fun c => !(c == '"'))))) (.lit [ '"' ]))

/-- Pattern 1 of `fix_device_multiline_comprehensive`:
`&Device\{\s+Serial:\s+"([^"]+)",\s+IP:\s+"([^"]+)",\s+Manufacturer:\s+"([^"]+)",\s+Model:\s+"([^"]+)",\s+IsSaved:\s+(\w+),\s+Consumables:\s+\[([^\]]*)\],?\s+\}`. -/
def devTestPat1 : RE := seqAll
  [ .lit ( "&Device\x7b".toList), sPlus,
    .lit ( "Serial:".toList), sPlus, qcap 1, .lit [ ',' ], sPlus,
    .lit ( "IP:".toList), sPlus, qcap 2, .lit [ ',' ], sPlus,
    .lit ( "Manufacturer:".toList), sPlus, qcap 3, .lit [ ',' ], sPlus,
    .lit ( "Model:".toList), sPlus, qcap 4, .lit [ ',' ], sPlus,
    .lit ( "IsSaved:".toList), sPlus, .grp 5 (rplus (.cls isWordChar)), .lit [ ',' ], sPlus,
    .lit ( "Consumables:".toList), sPlus, .lit [ '[' ],
    .grp 6 (star (.cls (fun c => !(c == ']')))), .lit [ ']' ], ropt (.lit [ ',' ]), sPlus,
    .lit [ '\x7d' ] ]

/-- Pattern 2: as pattern 1 but without the `Consumables` field and with an
optional trailing comma after `IsSaved`. -/
def devTestPat2 : RE := seqAll
  [ .lit ( "&Device\x7b".toList), sPlus,
    .lit ( "Serial:".toList), sPlus, qcap 1, .lit [ ',' ], sPlus,
    .lit ( "IP:".toList), sPlus, qcap 2, .lit [ ',' ], sPlus,
    .lit ( "Manufacturer:".toList), sPlus, qcap 3, .lit [ ',' ], sPlus,
    .lit ( "Model:".toList), sPlus, qcap 4, .lit [ ',' ], sPlus,
    .lit ( "IsSaved:".toList), sPlus, .grp 5 (rplus (.cls isWordChar)), ropt (.lit [ ',' ]), sPlus,
    .lit [ '\x7d' ] ]

/-- Pattern 3: multi-line with `Serial`, `IP`, `Manufacturer`, `Model` and no
`IsSaved`. -/
def devTestPat3 : RE := seqAll
  [ .lit ( "&Device\x7b".toList), sPlus,
    .lit ( "Serial:".toList), sPlus, qcap 1, .lit [ ',' ], sPlus,
    .lit ( "IP:".toList), sPlus, qcap 2, .lit [ ',' ], sPlus,
    .lit ( "Manufacturer:".toList), sPlus, qcap 3, .lit [ ',' ], sPlus,
    .lit ( "Model:".toList), sPlus, qcap 4, ropt (.lit [ ',' ]), sPlus,
    .lit [ '\x7d' ] ]

/-- Pattern 4: inline with `Serial`, `IP`, `Manufacturer`, `Model`,
`IsSaved` (separators `\s*`, no trailing comma or whitespace). -/
def devTestPat4 : RE := seqAll
  [ .lit ( "&Device\x7bSerial:".toList), sStar, qcap 1, .lit [ ',' ], sStar,
    .lit ( "IP:".toList), sStar, qcap 2, .lit [ ',' ], sStar,
    .lit ( "Manufacturer:".toList), sStar, qcap 3, .lit [ ',' ], sStar,
    .lit ( "Model:".toList), sStar, qcap 4, .lit [ ',' ], sStar,
    .lit ( "IsSaved:".toList), sStar, .grp 5 (rplus (.cls isWordChar)),
    .lit [ '\x7d' ] ]

/-- Pattern 5: inline with `Serial`, `IP`, `IsSaved`. -/
def devTestPat5 : RE := seqAll
  [ .lit ( "&Device\x7bSerial:".toList), sStar, qcap 1, .lit [ ',' ], sStar,
    .lit ( "IP:".toList), sStar, qcap 2, .lit [ ',' ], sStar,
    .lit ( "IsSaved:".toList), sStar, .grp 5 (rplus (.cls isWordChar)),
    .lit [ '\x7d' ] ]

/-- The replacement text of `replace1` and of the (textually identical)
lambdas for patterns 2 and 4: a `newFullTestDevice` call whose `isSaved`
argument is the captured word and whose final argument is literally
`true`. -/
def devTestReplFull (g1 g2 g3 g4 g5 : Str) : Str :=
  ( "newFullTestDevice(\"".toList) ++ g1 ++ ( "\", \"".toList) ++ g2 ++ ( "\", \"".toList)
    ++ g3 ++ ( "\", \"".toList) ++ g4 ++ ( "\", ".toList) ++ g5 ++ ( ", true)".toList)

/-- The replacement text of the pattern-3 lambda: no `IsSaved` captured, so
the call ends `..., false, true)`. -/
def devTestReplNoSaved (g1 g2 g3 g4 : Str) : Str :=
  ( "newFullTestDevice(\"".toList) ++ g1 ++ ( "\", \"".toList) ++ g2 ++ ( "\", \"".toList)
    ++ g3 ++ ( "\", \"".toList) ++ g4 ++ ( "\", false, true)".toList)

/-- The replacement text of the pattern-5 lambda. -/
def devTestReplMin (g1 g2 g5 : Str) : Str :=
  ( "newTestDevice(\"".toList) ++ g1 ++ ( "\", \"".toList) ++ g2 ++ ( "\", ".toList)
    ++ g5 ++ ( ", true)".toList)

/-- `fix_device_multiline_comprehensive`: the five `re.sub` passes in source
order. -/
def fix_device_multiline_comprehensive (content : Str) : Str :=
  let c1 := reSub devTestPat1
    (fun _ cs => devTestReplFull (capGet cs 1) (capGet cs 2) (capGet cs 3)
      (capGet cs 4) (capGet cs 5)) content
  let c2 := reSub devTestPat2
    (fun _ cs => devTestReplFull (capGet cs 1) (capGet cs 2) (capGet cs 3)
      (capGet cs 4) (capGet cs 5)) c1
  let c3 := reSub devTestPat3
    (fun _ cs => devTestReplNoSaved (capGet cs 1) (capGet cs 2) (capGet cs 3)
      (capGet cs 4)) c2
  let c4 := reSub devTestPat4
    (fun _ cs => devTestReplFull (capGet cs 1) (capGet cs 2) (capGet cs 3)
      (capGet cs 4) (capGet cs 5)) c3
  reSub devTestPat5
    (fun _ cs => devTestReplMin (capGet cs 1) (capGet cs 2) (capGet cs 5)) c4

/-- Per-file outcome of the module-level processing in `fix_test.py`. -/
structure FileRun where
  newContent : Str
  ops : List FsOp

/-- The module-level processing of `scan_history_test.go` in `fix_test.py`:
read, `add_helper_if_missing`, `fix_device_multiline_comprehensive`, then
open the file in write mode and write — unconditionally, even when nothing
changed, and with no backup. -/
def processScanHistoryFile (content : Str) : FileRun :=
  ⟨fix_device_multiline_comprehensive (add_helper_if_missing content), [FsOp.fileWrite]⟩

/-! ### Embedding of `tools/replace_console.py` -/

/-- The alternation `(debug|info|warn|error|trace|log)`, in source order. -/
def consoleMethodsPat : RE :=
  .alt (.lit ( "debug".toList)) (.alt (.lit ( "info".toList)) (.alt (.lit ( "warn".toList))
    (.alt (.lit ( "error".toList)) (.alt (.lit ( "trace".toList)) (.lit ( "log".toList))))))

/-- `PAT = \bconsole\.(debug|info|warn|error|trace|log)\s*\(` minus the word
boundary, which `consoleSubGo` enforces by tracking the previous character:
the pattern starts with the word character `c`, so `\b` holds exactly when
the previous character is absent or not a word character. -/
def consolePat : RE :=
  .seq (.lit ( "console.".toList)) (.seq (.grp 1 consoleMethodsPat) (.seq sStar (.lit [ '(' ])))

/-- The leading `\b` of `PAT`, as a check on the preceding character. -/
def consoleBoundaryOk : Option Char → Bool
  | none => true
  | some c => !isWordChar c

/-- `PAT.subn(lambda m: f"window.__pm_shared.{m.group(1)}(", txt)`: scan
left to right, at each boundary-allowed position try the pattern, splice in
the replacement and resume after the match.  Returns the new text and the
replacement count. -/
def consoleSubGo : Nat → Option Char → Str → Str × Nat
  | 0, _, s => (s, 0)
  | fuel + 1, prev, s =>
      match (if consoleBoundaryOk prev then tryMatch consolePat s else none) with
      | some (m, rest, cs) =>
          let repl := ( "window.__pm_shared.".toList) ++ capGet cs 1 ++ [ '(' ]
          let next := consoleSubGo fuel m.getLast? rest
          (repl ++ next.1, next.2 + 1)
      | none =>
          match s with
          | [] => ([], 0)
          | c :: t =>
              let next := consoleSubGo fuel (some c) t
              (c :: next.1, next.2)

/-- `PAT.subn(..., txt)` at the top level. -/
def consoleSubn (s : Str) : Str × Nat := consoleSubGo (s.length + 1) none s

/-- Per-file outcome of the module-level loop of `replace_console.py`. -/
structure JsFileRun where
  wrote : Bool
  backupWrote : Bool
  disk : Str

/-- The per-file body of `replace_console.py`'s loop: run `PAT.subn`; when at
least one replacement happened, write a `.bak` backup (only if none exists
yet) and then write the new text; otherwise the file is left untouched —
no write, no backup. -/
def processJsFile (txt : Str) (bakExists : Bool) : JsFileRun :=
  let r := consoleSubn txt
  if r.2 > 0 then ⟨true, !bakExists, r.1⟩ else ⟨false, false, txt⟩

/-- The same body with the file-system effects explicit: `backupOk` says
whether `bak.write_text` succeeds; its failure raises an exception, so the
function aborts before `p.write_text` runs (`Except.error`).  On success the
trace lists the operations in program order. -/
def processJsFileTrace (txt : Str) (bakExists backupOk : Bool) :
    Except Unit (List FsOp) :=
  let r := consoleSubn txt
  if r.2 > 0 then
    if !bakExists then
      if backupOk then Except.ok [FsOp.backupWrite, FsOp.fileWrite]
      else Except.error ()
    else Except.ok [FsOp.fileWrite]
  else Except.ok []

/-! ### Spec-side rewrite policy (for the refinement claim C7) -/

/-- Modelled from the spec (§4.3, Rewrite Policy): rules are tried in
configured order and the first rule whose required field names are all
present wins; later rules are never reached. -/
def firstMatchingRule (rules : List (List Str × Str)) (present : Str → Bool) : Option Str :=
  (rules.find? (fun r => r.1.all present)).map (fun r => r.2)

/-- The rule list implicit in `replace_multiline_device`, most fields
first. -/
def deviceRules : List (List Str × Str) :=
  [ ([ "Serial".toList, "IP".toList, "Manufacturer".toList, "Model".toList ],
      "newFullTestDevice".toList),
    ([ "Serial".toList, "IP".toList ], "newTestDevice".toList) ]

/-- Field presence induced by the four option-valued searches. -/
def devicePresence (serial ip manufacturer model : Option Str) : Str → Bool :=
  fun n =>
    if n = ( "Serial".toList) then serial.isSome
    else if n = ( "IP".toList) then ip.isSome
    else if n = ( "Manufacturer".toList) then manufacturer.isSome
    else if n = ( "Model".toList) then model.isSome
    else false

/-! ### Concrete buffers used by the claim theorems -/

/-- A metrics literal whose first field value contains the pattern's own
trigger text `storageSnapshot:=&storage.MetricsSnapshot{`. -/
def c1Input : Str :=
  ( "storageSnapshot := &storage.MetricsSnapshot\x7b\n\tA: storageSnapshot:=&storage.MetricsSnapshot\x7b,\n\tB: 1,\n\t\x7d\n \x7d".toList)

/-- A device literal whose `RawData` field value is a nested delimited
literal. -/
def c2Input : Str :=
  ( "d := &Device\x7bSerial: \"a\", IP: \"b\", RawData: map[string]int\x7b\"x\": 1\x7d\x7d".toList)

/-- The nested `RawData` value of `c2Input`, intact. -/
def c2NestedValue : Str := ( "map[string]int\x7b\"x\": 1\x7d".toList)

/-- What the extra-field regex actually captures for `RawData` in `c2Input`:
the value cut off at the nested closing brace. -/
def c2TruncValue : Str := ( "map[string]int\x7b\"x\": 1".toList)

/-- The span the device pattern actually matches in `c2Input`: it stops at
the nested value's closing brace, leaving the literal's own closer behind. -/
def c2TruncSpan : Str :=
  ( "d := &Device\x7bSerial: \"a\", IP: \"b\", RawData: map[string]int\x7b\"x\": 1\x7d".toList)

/-- A tiny buffer with no metrics-literal match. -/
def c3Probe : Str := ( "x := 1\n".toList)

/-- A metrics literal one of whose segments has no name/value separator. -/
def c4Input : Str :=
  ( "storageSnapshot := &storage.MetricsSnapshot\x7b\n\tSerial: \"a\",\n\tGARBAGE,\n\t\x7d".toList)

/-- An already-rewritten test file: it defines `newTestDevice` and contains
no remaining `&Device{...}` literal. -/
def c5Input : Str :=
  ( "package storage\n\nfunc newTestDevice(serial, ip string, isSaved, visible bool) *Device \x7b\n\treturn nil\n\x7d\n\nfunc TestA(t *testing.T) \x7b\n\td := newTestDevice(\"a\", \"b\", true, true)\n\x7d\n".toList)

/-- A well-formed metrics literal that the engine rewrites. -/
def c6Input : Str :=
  ( "storageSnapshot := &storage.MetricsSnapshot\x7b\n\tSerial: \"s\",\n\t\x7d".toList)

/-- A device literal whose `Consumables` value is a nested list literal. -/
def c8Input : Str :=
  ( "d := &Device\x7bSerial: \"s\", IP: \"i\", Consumables: []string\x7b\"k1\"\x7d\x7d".toList)

/-- The intact `Consumables` value of `c8Input`. -/
def c8Value : Str := ( "[]string\x7b\"k1\"\x7d".toList)

/-- The span the device pattern matches in `c8Input` (cut at the nested
closer). -/
def c8Span : Str :=
  ( "d := &Device\x7bSerial: \"s\", IP: \"i\", Consumables: []string\x7b\"k1\"\x7d".toList)

/-- What the extra-field regex captures for `Consumables` in `c8Span`. -/
def c8Trunc : Str := ( "[]string\x7b\"k1\"".toList)

/-- A device literal with a duplicated `Serial` field. -/
def c9Input : Str :=
  ( "d := &Device\x7bSerial: \"FIRST\", IP: \"b\", Serial: \"SECOND\"\x7d".toList)

/-- A JavaScript buffer with no `console.<method>(` call. -/
def jsNoMatch : Str := ( "var x = 1;\n".toList)

/-- A JavaScript buffer with exactly one `console.<method>(` call. -/
def jsOneMatch : Str := ( "console.log(x)".toList)

/-! ## Engine lemmas: every match consumes a prefix, so `re.sub` splits the
buffer into kept segments and matched spans. -/

theorem chunksOrig_nil : chunksOrig [] = [] := rfl

theorem chunksOrig_cons (c : Chunk) (cs : List Chunk) :
    chunksOrig (c :: cs) = chunkOrig c ++ chunksOrig cs := rfl

theorem repRun_suffix {g : Bool} {body : Str → Caps → List (Str × Caps)}
    (hbody : ∀ s cs rc, rc ∈ body s cs → rc.1 <:+ s) :
    ∀ (fuel : Nat) (s : Str) (cs : Caps) (rc : Str × Caps),
      rc ∈ repRun g body fuel s cs → rc.1 <:+ s := by
  intro fuel
  induction fuel with
  | zero =>
      intro s cs rc hrc
      simp only [repRun, List.mem_singleton] at hrc
      subst hrc
      exact List.suffix_refl s
  | succ n ih =>
      intro s cs rc hrc
      have main : rc ∈ ((body s cs).filter (fun p => p.1.length < s.length)).flatMap
          (fun p => repRun g body n p.1 p.2) → rc.1 <:+ s := by
        intro hm
        rcases List.mem_flatMap.mp hm with ⟨p, hp, hrec⟩
        rcases List.mem_filter.mp hp with ⟨hpb, _⟩
        exact (ih p.1 p.2 rc hrec).trans (hbody s cs p hpb)
      cases g with
      | true =>
          simp only [repRun] at hrc
          rcases List.mem_append.mp hrc with h | h
          · exact main h
          · simp only [List.mem_singleton] at h
            subst h
            exact List.suffix_refl s
      | false =>
          simp only [repRun] at hrc
          rcases List.mem_cons.mp hrc with h | h
          · subst h
            exact List.suffix_refl s
          · exact main h

theorem mrun_suffix : ∀ (r : RE) (s : Str) (cs : Caps) (rc : Str × Caps),
    rc ∈ mrun r s cs → rc.1 <:+ s := by
  intro r
  induction r with
  | eps =>
      intro s cs rc h
      simp only [mrun, List.mem_singleton] at h
      subst h
      exact List.suffix_refl s
  | cls p =>
      intro s cs rc h
      cases s with
      | nil => simp [mrun] at h
      | cons c t =>
          by_cases hp : p c = true
          · simp only [mrun, hp, if_true, List.mem_singleton] at h
            subst h
            exact List.suffix_cons c t
          · simp [mrun, hp] at h
  | lit l =>
      intro s cs rc h
      by_cases hp : l.isPrefixOf s = true
      · simp only [mrun, hp, if_true, List.mem_singleton] at h
        subst h
        exact List.drop_suffix l.length s
      · simp [mrun, hp] at h
  | seq a b iha ihb =>
      intro s cs rc h
      simp only [mrun] at h
      rcases List.mem_flatMap.mp h with ⟨p, hp, hb⟩
      exact (ihb p.1 p.2 rc hb).trans (iha s cs p hp)
  | alt a b iha ihb =>
      intro s cs rc h
      simp only [mrun] at h
      rcases List.mem_append.mp h with h | h
      · exact iha s cs rc h
      · exact ihb s cs rc h
  | rep g r ihr =>
      intro s cs rc h
      simp only [mrun] at h
      exact repRun_suffix (fun s' cs' rc' h' => ihr s' cs' rc' h') _ s cs rc h
  | grp n r ihr =>
      intro s cs rc h
      simp only [mrun, List.mem_map] at h
      rcases h with ⟨p, hp, hrc⟩
      have := ihr s cs p hp
      rw [← hrc]
      exact this

theorem tryMatch_decomp {r : RE} {s m rest : Str} {cs : Caps}
    (h : tryMatch r s = some (m, rest, cs)) : m ++ rest = s := by
  unfold tryMatch at h
  cases hm : mrun r s [] with
  | nil => rw [hm] at h; exact Option.noConfusion h
  | cons rc tl =>
      rw [hm] at h
      injection h with h'
      have hmem : rc ∈ mrun r s [] := by rw [hm]; exact List.mem_cons_self rc tl
      rcases mrun_suffix r s [] rc hmem with ⟨p, hp⟩
      have hm1 : m = s.take (s.length - rc.1.length) := congrArg Prod.fst h'.symm
      have hrest : rest = rc.1 := congrArg (fun q => q.2.1) h'.symm
      have hlen : s.length - rc.1.length = p.length := by
        rw [← hp, List.length_append]
        omega
      rw [hm1, hrest, hlen, ← hp, List.take_left]

theorem reFind_decomp (r : RE) : ∀ (s : Str) (fr : FindResult),
    reFind r s = some fr → fr.pre ++ fr.matched ++ fr.rest = s := by
  intro s
  induction s with
  | nil =>
      intro fr h
      rw [reFind] at h
      cases ht : tryMatch r [] with
      | none => rw [ht] at h; exact Option.noConfusion h
      | some v =>
          obtain ⟨m, rest, cs⟩ := v
          rw [ht] at h
          injection h with h'
          subst h'
          simpa using tryMatch_decomp ht
  | cons c t ih =>
      intro fr h
      rw [reFind] at h
      cases ht : tryMatch r (c :: t) with
      | some v =>
          obtain ⟨m, rest, cs⟩ := v
          rw [ht] at h
          injection h with h'
          subst h'
          simpa using tryMatch_decomp ht
      | none =>
          rw [ht] at h
          cases hf : reFind r t with
          | none => rw [hf] at h; exact Option.noConfusion h
          | some fr' =>
              rw [hf] at h
              have h2 : some (⟨c :: fr'.pre, fr'.matched, fr'.rest, fr'.caps⟩ : FindResult) =
                  some fr := h
              have h3 := Option.some.inj h2
              subst h3
              have := ih fr' hf
              simpa using this

theorem reSubChunks_orig (r : RE) (f : Str → Caps → Str) :
    ∀ (fuel : Nat) (s : Str), chunksOrig (reSubChunks r f fuel s) = s := by
  intro fuel
  induction fuel with
  | zero =>
      intro s
      simp [reSubChunks, chunksOrig, catLists, chunkOrig]
  | succ n ih =>
      intro s
      cases hf : reFind r s with
      | none =>
          simp [reSubChunks, hf, chunksOrig, catLists, chunkOrig]
      | some fr =>
          have hdec := reFind_decomp r s fr hf
          cases hm : fr.matched with
          | nil =>
              cases hrest : fr.rest with
              | nil =>
                  simp only [reSubChunks, hf, hm, hrest]
                  rw [hm, hrest] at hdec
                  simp only [chunksOrig_cons, chunksOrig_nil, chunkOrig]
                  simpa using hdec
              | cons c t =>
                  simp only [reSubChunks, hf, hm, hrest]
                  rw [hm, hrest] at hdec
                  simp only [chunksOrig_cons, chunkOrig, ih t]
                  simpa using hdec
          | cons mc mt =>
              simp only [reSubChunks, hf, hm]
              rw [hm] at hdec
              simp only [chunksOrig_cons, chunkOrig, ih fr.rest]
              simpa [List.append_assoc] using hdec

/-! ## String-helper lemmas -/

theorem containsSub_spec {h n : Str} : containsSub h n = true ↔ n <:+: h := by
  induction h with
  | nil =>
      simp [containsSub, List.isPrefixOf_iff_prefix, List.infix_nil, List.prefix_nil]
  | cons c t ih =>
      simp [containsSub, Bool.or_eq_true, List.isPrefixOf_iff_prefix, ih,
        List.infix_cons_iff]

theorem containsSub_append_middle {n h : Str} (a b : Str)
    (hin : containsSub h n = true) : containsSub (a ++ h ++ b) n = true := by
  rw [containsSub_spec] at hin ⊢
  exact hin.trans (List.infix_append a h b)

theorem word_not_space {c : Char} (h : isWordChar c = true) : isPySpace c = false := by
  cases hs : isPySpace c
  · rfl
  · exfalso
    simp only [isPySpace, Bool.or_eq_true, beq_iff_eq] at hs
    rcases hs with ((((h1 | h1) | h1) | h1) | h1) | h1 <;> subst h1 <;>
      exact absurd h (by decide)

theorem word_ne_slash {c : Char} (h : isWordChar c = true) : ('/' == c) = false := by
  cases he : ('/' == c)
  · rfl
  · have hc : c = '/' := (beq_iff_eq.mp he).symm
    subst hc
    exact absurd h (by decide)

theorem takeWhile_append_stop {p : Char → Bool} :
    ∀ (a : Str) (x : Char) (r : Str), (∀ c ∈ a, p c = true) → p x = false →
      (a ++ x :: r).takeWhile p = a := by
  intro a
  induction a with
  | nil =>
      intro x r _ hx
      simp [List.takeWhile_cons, hx]
  | cons c t ih =>
      intro x r hall hx
      have hc : p c = true := hall c (by simp)
      simp only [List.cons_append, List.takeWhile_cons, hc, if_true]
      rw [ih x r (fun d hd => hall d (by simp [hd])) hx]

theorem dropWhile_append_stop {p : Char → Bool} :
    ∀ (a : Str) (x : Char) (r : Str), (∀ c ∈ a, p c = true) → p x = false →
      (a ++ x :: r).dropWhile p = x :: r := by
  intro a
  induction a with
  | nil =>
      intro x r _ hx
      simp [List.dropWhile_cons, hx]
  | cons c t ih =>
      intro x r hall hx
      have hc : p c = true := hall c (by simp)
      simp only [List.cons_append, List.dropWhile_cons, hc, if_true]
      exact ih x r (fun d hd => hall d (by simp [hd])) hx

theorem pyLstrip_no_ws {s : Str} (h : ∀ c, s.head? = some c → isPySpace c = false) :
    pyLstrip s = s := by
  cases s with
  | nil => rfl
  | cons c t =>
      simp [pyLstrip, List.dropWhile_cons, h c rfl]

theorem pyRstrip_no_ws {s : Str} (h : ∀ c, s.getLast? = some c → isPySpace c = false) :
    pyRstrip s = s := by
  unfold pyRstrip
  cases hr : s.reverse with
  | nil =>
      rw [List.reverse_eq_nil_iff.mp hr]
      rfl
  | cons c t =>
      have hc : s.getLast? = some c := by
        rw [← List.head?_reverse, hr]
        rfl
      rw [List.dropWhile_cons, h c hc]
      simp only [Bool.false_eq_true, if_false]
      rw [← hr, List.reverse_reverse]

theorem pyStrip_no_ws {s : Str}
    (hh : ∀ c, s.head? = some c → isPySpace c = false)
    (hl : ∀ c, s.getLast? = some c → isPySpace c = false) :
    pyStrip s = s := by
  unfold pyStrip
  rw [pyLstrip_no_ws hh, pyRstrip_no_ws hl]

theorem mem_pyStrip {c : Char} {s : Str} (h : c ∈ pyStrip s) : c ∈ s := by
  unfold pyStrip pyRstrip pyLstrip at h
  have h1 : c ∈ List.dropWhile isPySpace (List.dropWhile isPySpace s).reverse :=
    List.mem_reverse.mp h
  have h2 : c ∈ (List.dropWhile isPySpace s).reverse := (List.dropWhile_sublist _).subset h1
  have h3 : c ∈ List.dropWhile isPySpace s := List.mem_reverse.mp h2
  exact (List.dropWhile_sublist _).subset h3

theorem tailCommaWs_append_comma : ∀ (t : Str), t ≠ [] → tailCommaWs (t ++ [',']) = false := by
  intro t ht
  have hcomma : isPySpace ',' = false := by decide
  cases t with
  | nil => exact absurd rfl ht
  | cons c u =>
      simp [tailCommaWs, List.all_cons, List.all_append, hcomma]

theorem lazyCapGo_append_comma : ∀ (v : Str), v ≠ [] → lazyCapGo (v ++ [',']) = some v := by
  intro v
  induction v with
  | nil => intro h; exact absurd rfl h
  | cons c t ih =>
      intro _
      cases ht : t with
      | nil =>
          simp [lazyCapGo, show tailCommaWs [','] = true from by decide]
      | cons d u =>
          have hne : t ≠ [] := by rw [ht]; exact List.cons_ne_nil d u
          have hts := tailCommaWs_append_comma t hne
          rw [← ht]
          simp only [List.cons_append, lazyCapGo, List.append_eq, hts, Bool.false_eq_true,
            if_false, ih hne, Option.map_some']

theorem rstripComma_no_comma {v : Str}
    (h : ∀ c, v.getLast? = some c → (c == ',') = false) :
    rstripComma v = v := by
  unfold rstripComma
  cases hr : v.reverse with
  | nil =>
      rw [List.reverse_eq_nil_iff.mp hr]
      rfl
  | cons c t =>
      have hc : v.getLast? = some c := by
        rw [← List.head?_reverse, hr]
        rfl
      rw [List.dropWhile_cons, h c hc]
      simp only [Bool.false_eq_true, if_false]
      rw [← hr, List.reverse_reverse]

/-! ## Claim theorems -/

/-- C1 (amended): the helper-insertion step is idempotent — after one pass
the buffer contains `func newTestDevice(` (pre-existing or just inserted),
so a second pass of `add_helper_if_missing` changes nothing.  The literal
replacement, by contrast, is not idempotent for every input (see the
counterexample). -/
theorem claim1_theorem (content : Str) :
    add_helper_if_missing (add_helper_if_missing content) = add_helper_if_missing content := by
  have hfix : ∀ y : Str, containsSub y ( "func newTestDevice(".toList) = true →
      add_helper_if_missing y = y := by
    intro y hy
    unfold add_helper_if_missing
    rw [if_pos hy]
  by_cases hc : containsSub content ( "func newTestDevice(".toList) = true
  · rw [hfix content hc]
    exact hfix content hc
  · have hkey : containsSub helpersText ( "func newTestDevice(".toList) = true := by decide
    have h1 : add_helper_if_missing content =
        pySliceTo content (importEnd content) ++ helpersText
          ++ pySliceFrom content (importEnd content) := by
      unfold add_helper_if_missing
      rw [if_neg hc]
    have h2 : containsSub (add_helper_if_missing content)
        ( "func newTestDevice(".toList) = true := by
      rw [h1]
      exact containsSub_append_middle _ _ hkey
    exact hfix _ h2

/-- C1 (counterexample): running the metrics rewrite twice on `c1Input`
does not equal running it once — the first run's output contains the
pattern's trigger text inside an emitted assignment, and the second run
rewrites it again. -/
theorem claim1_counterexample :
    fixMetricsContent (fixMetricsContent c1Input) ≠ fixMetricsContent c1Input := by
  decide

/-- C2: on a construction expression with a nested delimited value, the
device span pattern ends the match at the nested value's closing brace
(leaving the literal's own closer outside the span), and the extra-field
regex captures the `RawData` value with its closing brace cut off — the
nested value is not recovered intact. -/
theorem claim2_theorem :
    (reFind devicePat c2Input).map (fun fr => fr.matched) = some c2TruncSpan ∧
    (reFind devicePat c2Input).map (fun fr => fr.rest) = some [ '\x7d' ] ∧
    searchGroup1 (extraFieldPat ( "RawData".toList)) c2TruncSpan = some c2TruncValue ∧
    c2TruncValue ≠ c2NestedValue := by
  exact ⟨by decide, by decide, by decide, by decide⟩

/-- C3: non-interference.  Each `re.sub` pass decomposes its input into
chunks whose original sides concatenate back to the input, kept chunks are
emitted byte-for-byte, and the helper insertion only splices a block into an
unchanged split of the buffer. -/
theorem claim3_theorem (content : Str) :
    (chunksOrig (fixMetricsChunks content) = content ∧
      fixMetricsContent content = chunksNew (fixMetricsChunks content) ∧
      ∀ c ∈ fixMetricsChunks content, chunkIsKeep c = true → chunkNew c = chunkOrig c) ∧
    (chunksOrig (convertDeviceChunks content) = content ∧
      ∀ c ∈ convertDeviceChunks content, chunkIsKeep c = true → chunkNew c = chunkOrig c) ∧
    (add_helper_if_missing content = content ∨
      ∃ a b, content = a ++ b ∧ add_helper_if_missing content = a ++ helpersText ++ b) := by
  refine ⟨⟨reSubChunks_orig _ _ _ _, rfl, ?_⟩, ⟨reSubChunks_orig _ _ _ _, ?_⟩, ?_⟩
  · intro c _ hk
    cases c with
    | keep t => rfl
    | subst o nw => exact absurd hk (by simp [chunkIsKeep])
  · intro c _ hk
    cases c with
    | keep t => rfl
    | subst o nw => exact absurd hk (by simp [chunkIsKeep])
  · by_cases hc : containsSub content ( "func newTestDevice(".toList) = true
    · left
      unfold add_helper_if_missing
      rw [if_pos hc]
    · right
      refine ⟨pySliceTo content (importEnd content), pySliceFrom content (importEnd content),
        (List.take_append_drop _ _).symm, ?_⟩
      unfold add_helper_if_missing
      rw [if_neg hc]

/-- C3 (witness): the decomposition at a concrete buffer with no match. -/
theorem claim3_witness :
    chunksOrig (fixMetricsChunks c3Probe) = c3Probe ∧
    chunkNew (Chunk.keep c3Probe) = chunkOrig (Chunk.keep c3Probe) :=
  ⟨(claim3_theorem c3Probe).1.1,
    (claim3_theorem c3Probe).1.2.2 (Chunk.keep c3Probe) (by decide) rfl⟩

/-- C4 (amended): a segment without a name/value separator never crashes the
engine — it is silently dropped: a colon-free line contributes no assignment
in `replace_snapshot` (while the span itself is still rewritten), and the
device converter leaves a span unchanged only when its `Serial` field cannot
be extracted. -/
theorem claim4_theorem :
    (∀ line : Str, line.any (fun c => c == ':') = false → processFieldLine line = none) ∧
    (∀ (m : Str) (cs : Caps),
      searchGroup1 (quotedFieldPat ( "Serial".toList)) m = none →
      replace_multiline_device m cs = m) := by
  constructor
  · intro line h
    have hstrip : (pyStrip line).any (fun c => c == ':') = false := by
      cases ha : (pyStrip line).any (fun c => c == ':')
      · rfl
      · exfalso
        rcases List.any_eq_true.mp ha with ⟨c, hc, hcc⟩
        have : line.any (fun c => c == ':') = true :=
          List.any_eq_true.mpr ⟨c, mem_pyStrip hc, hcc⟩
        rw [h] at this
        exact Bool.noConfusion this
    unfold processFieldLine
    by_cases h1 :
        (!(pyStrip line).isEmpty && !(( "//".toList).isPrefixOf (pyStrip line))) = true
    · simp only [h1, if_true, hstrip, Bool.false_eq_true, if_false]
    · simp only [Bool.not_eq_true] at h1
      simp only [h1, Bool.false_eq_true, if_false]
  · intro m cs h
    unfold replace_multiline_device
    rw [h]
    cases hip : searchGroup1 (quotedFieldPat ( "IP".toList)) m with
    | none => rfl
    | some iv => rfl

/-- C4 (witness): the colon-free segment `GARBAGE,` is dropped, and a device
span without a `Serial` field is returned unchanged. -/
theorem claim4_witness :
    processFieldLine ( "GARBAGE,".toList) = none ∧
    replace_multiline_device ( "x := &Device\x7bFoo: bar\x7d".toList) [] =
      ( "x := &Device\x7bFoo: bar\x7d".toList) :=
  ⟨claim4_theorem.1 _ (by decide), claim4_theorem.2 _ [] (by decide)⟩

/-- C4 (counterexample): on a span containing the separator-free segment
`GARBAGE,`, `fix_metrics_snapshot_in_file` does not leave the span
unmodified — it rewrites the span and silently drops the segment (and
nothing like a `MalformedLiteral` exists in the scripts). -/
theorem claim4_counterexample :
    fixMetricsContent c4Input ≠ c4Input ∧
    containsSub (fixMetricsContent c4Input) ( "GARBAGE".toList) = false := by
  exact ⟨by decide, by decide⟩

/-- C5 (amended): the console-replacement utility leaves a zero-match file
untouched: no write, no backup, disk content unchanged. -/
theorem claim5_theorem (txt : Str) (bakExists : Bool)
    (h : (consoleSubn txt).2 = 0) :
    (processJsFile txt bakExists).wrote = false ∧
    (processJsFile txt bakExists).backupWrote = false ∧
    (processJsFile txt bakExists).disk = txt := by
  unfold processJsFile
  simp [h]

/-- C5 (witness): a concrete buffer with no console call. -/
theorem claim5_witness :
    (processJsFile jsNoMatch true).wrote = false ∧
    (processJsFile jsNoMatch true).backupWrote = false ∧
    (processJsFile jsNoMatch true).disk = jsNoMatch :=
  claim5_theorem jsNoMatch true (by decide)

/-- C5 (counterexample): `fix_test.py` writes the file even when a full pass
finds zero candidate matches — on an already-rewritten buffer the content is
unchanged yet a write still occurs. -/
theorem claim5_counterexample :
    (processScanHistoryFile c5Input).newContent = c5Input ∧
    (processScanHistoryFile c5Input).ops = [FsOp.fileWrite] := by
  exact ⟨by decide, rfl⟩

/-- C6 (amended): in `replace_console.py`, whenever the per-file body writes
the rewritten buffer, a backup write precedes it in the trace unless a
backup file already existed; and when the backup cannot be persisted the
body aborts with an error and no write happens. -/
theorem claim6_theorem (txt : Str) (bakExists backupOk : Bool) :
    (∀ ops, processJsFileTrace txt bakExists backupOk = Except.ok ops →
      FsOp.fileWrite ∈ ops →
      bakExists = true ∨ ops = [FsOp.backupWrite, FsOp.fileWrite]) ∧
    (0 < (consoleSubn txt).2 →
      processJsFileTrace txt false false = Except.error ()) := by
  constructor
  · intro ops h hw
    unfold processJsFileTrace at h
    by_cases hn : (consoleSubn txt).2 > 0
    · cases bakExists with
      | true =>
          left
          rfl
      | false =>
          cases backupOk with
          | true =>
              right
              simp only [hn, if_true, Bool.not_false, if_true] at h
              exact (Except.ok.inj h).symm
          | false =>
              simp only [hn, if_true, Bool.not_false, if_true, Bool.false_eq_true, if_false] at h
              exact Except.noConfusion h
    · simp only [hn, if_false] at h
      rw [← Except.ok.inj h] at hw
      exact absurd hw (by simp)
  · intro hn
    unfold processJsFileTrace
    simp [hn]

/-- C6 (witness): the trace properties at a buffer with one console call. -/
theorem claim6_witness :
    (false = true ∨
      ([FsOp.backupWrite, FsOp.fileWrite] : List FsOp) =
        [FsOp.backupWrite, FsOp.fileWrite]) ∧
    processJsFileTrace jsOneMatch false false = Except.error () :=
  ⟨(claim6_theorem jsOneMatch false true).1 [FsOp.backupWrite, FsOp.fileWrite]
      (by rfl) (by decide),
    (claim6_theorem jsOneMatch false false).2 (by decide)⟩

/-- C6 (counterexample): `fix_metrics_snapshot_in_file` writes a rewritten
buffer with no backup whatsoever — its operation trace is a bare write. -/
theorem claim6_counterexample :
    (fix_metrics_snapshot_in_file c6Input).1 ≠ c6Input ∧
    (fix_metrics_snapshot_in_file c6Input).2 = [FsOp.fileWrite] ∧
    FsOp.backupWrite ∉ (fix_metrics_snapshot_in_file c6Input).2 := by
  exact ⟨by decide, rfl, by decide⟩

/-- C7: the helper-call selection of `replace_multiline_device` refines the
spec's first-match-wins policy over the ordered rule list `deviceRules`:
conversion yields no rewrite exactly when no rule's required fields are all
present, and when the first matching rule carries helper `name` the emitted
call opens with `var := name(`; rules after the first match are never
used. -/
theorem claim7_theorem (v : Str) (s i m d sv : Option Str) :
    ((deviceConvertCore v s i m d sv).isNone =
      (firstMatchingRule deviceRules (devicePresence s i m d)).isNone) ∧
    (∀ name, firstMatchingRule deviceRules (devicePresence s i m d) = some name →
      ∃ rest, deviceConvertCore v s i m d sv =
        some (v ++ ( " := ".toList) ++ name ++ [ '(' ] ++ rest)) := by
  rcases s with _ | a <;> rcases i with _ | b <;> rcases m with _ | c <;> rcases d with _ | e <;>
    refine ⟨rfl, ?_⟩ <;> intro name h <;>
    first
      | exact Option.noConfusion h
      | (have hname := Option.some.inj h
         subst hname
         first
           | exact ⟨( "\"".toList) ++ a ++ ( "\", \"".toList) ++ b ++ ( "\", ".toList)
               ++ sv.getD ( "false".toList) ++ ( ", true)".toList),
               by simp only [deviceConvertCore, List.append_assoc]; rfl⟩
           | exact ⟨( "\"".toList) ++ a ++ ( "\", \"".toList) ++ b ++ ( "\", \"".toList)
               ++ c ++ ( "\", \"".toList) ++ e ++ ( "\", ".toList)
               ++ sv.getD ( "false".toList) ++ ( ", true)".toList),
               by simp only [deviceConvertCore, List.append_assoc]; rfl⟩)

/-- C7 (witness): with only `Serial` and `IP` present the first satisfied
rule is the second one, `newTestDevice`. -/
theorem claim7_witness :
    ∃ rest, deviceConvertCore ( "dv".toList) (some ( "sn".toList)) (some ( "ip".toList))
        none none none =
      some (( "dv".toList) ++ ( " := ".toList) ++ ( "newTestDevice".toList)
        ++ [ '(' ] ++ rest) :=
  (claim7_theorem ( "dv".toList) (some ( "sn".toList)) (some ( "ip".toList)) none none none).2
    ( "newTestDevice".toList) (by rfl)

/-- C8 (amended): single-line field values are round-tripped exactly by the
metrics field extractor and emitter: for any word-character name and any
non-empty newline-free value that does not start with whitespace and does
not end with whitespace or a comma, processing the line `name: value,`
emits the assignment with the value text byte-for-byte unchanged. -/
theorem claim8_theorem (name v : Str)
    (hn : name ≠ []) (hw : name.all isWordChar = true)
    (hv : v ≠ [])
    (hh : v.head?.all (fun c => !isPySpace c) = true)
    (hl1 : v.getLast?.all (fun c => !isPySpace c) = true)
    (hl2 : v.getLast?.all (fun c => !(c == ',')) = true)
    (_hnl : v.all (fun c => !(c == '\n')) = true) :
    processFieldLine (name ++ ':' :: ' ' :: (v ++ [','])) =
      some (( "\t\t\tstorageSnapshot.".toList) ++ name ++ ( " = ".toList) ++ v) := by
  obtain ⟨n0, nt, rfl⟩ : ∃ n0 nt, name = n0 :: nt := by
    cases name with
    | nil => exact absurd rfl hn
    | cons x y => exact ⟨x, y, rfl⟩
  obtain ⟨v0, vt, rfl⟩ : ∃ v0 vt, v = v0 :: vt := by
    cases v with
    | nil => exact absurd rfl hv
    | cons x y => exact ⟨x, y, rfl⟩
  have hw' : ∀ x ∈ n0 :: nt, isWordChar x = true := List.all_eq_true.mp hw
  have hn0 : isWordChar n0 = true := hw' n0 (by simp)
  have hv0 : isPySpace v0 = false := by
    simp only [List.head?_cons, Option.all_some, Bool.not_eq_true'] at hh
    exact hh
  have hlast : ∀ x, (v0 :: vt).getLast? = some x →
      isPySpace x = false ∧ (x == ',') = false := by
    intro x hx
    rw [hx] at hl1 hl2
    simp only [Option.all_some, Bool.not_eq_true'] at hl1 hl2
    exact ⟨hl1, hl2⟩
  have hLcons : (n0 :: nt) ++ ':' :: ' ' :: ((v0 :: vt) ++ [',']) =
      n0 :: (nt ++ ':' :: ' ' :: ((v0 :: vt) ++ [','])) := rfl
  have hLconcat : (n0 :: nt) ++ ':' :: ' ' :: ((v0 :: vt) ++ [',']) =
      ((n0 :: nt) ++ ':' :: ' ' :: (v0 :: vt)) ++ [','] := by
    simp [List.append_assoc]
  have hlastL : ((n0 :: nt) ++ ':' :: ' ' :: ((v0 :: vt) ++ [','])).getLast? = some ',' := by
    rw [hLconcat]
    exact List.getLast?_concat _
  have hstrip : pyStrip ((n0 :: nt) ++ ':' :: ' ' :: ((v0 :: vt) ++ [','])) =
      (n0 :: nt) ++ ':' :: ' ' :: ((v0 :: vt) ++ [',']) := by
    apply pyStrip_no_ws
    · intro x hx
      rw [hLcons, List.head?_cons] at hx
      cases Option.some.inj hx
      exact word_not_space hn0
    · intro x hx
      rw [hlastL] at hx
      cases Option.some.inj hx
      decide
  have hne : ((n0 :: nt) ++ ':' :: ' ' :: ((v0 :: vt) ++ [','])).isEmpty = false := by
    rw [hLcons]
    rfl
  have hpre : (( "//".toList)).isPrefixOf
      ((n0 :: nt) ++ ':' :: ' ' :: ((v0 :: vt) ++ [','])) = false := by
    rw [hLcons]
    show (('/' == n0) && _) = false
    rw [word_ne_slash hn0]
    rfl
  have hany : ((n0 :: nt) ++ ':' :: ' ' :: ((v0 :: vt) ++ [','])).any
      (fun c => c == ':') = true :=
    List.any_eq_true.mpr ⟨':', by simp, by simp⟩
  have htake : ((n0 :: nt) ++ ':' :: ' ' :: ((v0 :: vt) ++ [','])).takeWhile isWordChar =
      n0 :: nt :=
    takeWhile_append_stop _ ':' _ hw' (by decide)
  have hdrop : ((n0 :: nt) ++ ':' :: ' ' :: ((v0 :: vt) ++ [','])).dropWhile isWordChar =
      ':' :: ' ' :: ((v0 :: vt) ++ [',']) :=
    dropWhile_append_stop _ ':' _ hw' (by decide)
  have hdws : (' ' :: ((v0 :: vt) ++ [','])).dropWhile isPySpace = (v0 :: vt) ++ [','] := by
    rw [List.dropWhile_cons]
    simp only [show isPySpace ' ' = true from by decide, if_true]
    rw [List.cons_append, List.dropWhile_cons, hv0]
    simp
  have hmv : matchValueRe (' ' :: ((v0 :: vt) ++ [','])) = some (v0 :: vt) := by
    unfold matchValueRe
    rw [hdws, List.cons_append]
    show lazyCapGo (v0 :: (vt ++ [','])) = some (v0 :: vt)
    rw [← List.cons_append]
    exact lazyCapGo_append_comma _ (List.cons_ne_nil v0 vt)
  have hflm : fieldLineMatch ((n0 :: nt) ++ ':' :: ' ' :: ((v0 :: vt) ++ [','])) =
      some (n0 :: nt, v0 :: vt) := by
    unfold fieldLineMatch
    simp only [htake, hdrop, hmv, Option.map_some']
  have hrs : rstripComma (v0 :: vt) = v0 :: vt :=
    rstripComma_no_comma (fun x hx => (hlast x hx).2)
  unfold processFieldLine
  simp only [hstrip, hne, hpre, Bool.not_false, Bool.and_self, if_true, hany, hflm, hrs]

/-- C8 (witness): the field line `PageCount: 42,` round-trips exactly. -/
theorem claim8_witness :
    processFieldLine (( "PageCount".toList) ++ ':' :: ' ' :: (( "42".toList) ++ [ ',' ])) =
      some (( "\t\t\tstorageSnapshot.".toList) ++ ( "PageCount".toList) ++ ( " = ".toList)
        ++ ( "42".toList)) :=
  claim8_theorem _ _ (by decide) (by decide) (by decide) (by decide) (by decide)
    (by decide) (by decide)

/-- C8 (counterexample): the `Consumables` value `[]string{"k1"}` of
`c8Input` contains no line break, yet extraction plus re-rendering yields
the truncated text `[]string{"k1` — the value is altered in a way that is
not line-break normalization. -/
theorem claim8_counterexample :
    (reFind devicePat c8Input).map (fun fr => fr.matched) = some c8Span ∧
    searchGroup1 (extraFieldPat ( "Consumables".toList)) c8Span = some c8Trunc ∧
    cleanExtraValue c8Trunc = c8Trunc ∧
    c8Trunc ≠ c8Value ∧
    c8Value.any (fun c => c == '\n') = false := by
  exact ⟨by decide, by decide, by decide, by decide, by decide⟩

/-- C9 (amended): duplicate field names are not detected: on the
duplicated-`Serial` literal the converter silently emits a call built from
the first occurrence, dropping the second. -/
theorem claim9_theorem :
    convert_device_to_helper c9Input =
      ( "d := newTestDevice(\"FIRST\", \"b\", false, true)".toList) := by
  decide

/-- C9 (counterexample): the engine reports no malformed-input condition on
a duplicated field name — it rewrites the span (the output differs from the
input) and the second occurrence's value vanishes without a trace. -/
theorem claim9_counterexample :
    convert_device_to_helper c9Input ≠ c9Input ∧
    containsSub (convert_device_to_helper c9Input) ( "SECOND".toList) = false := by
  exact ⟨by decide, by decide⟩

/-- C10: every emitted device helper call passes the literal `true` as its
final argument, and when `IsSaved` is absent the `isSaved` argument is the
literal `false`, so the call ends `, false, true)`; this holds for the
`fix_test_v2.py` converter core and for all three `fix_test.py` replacement
templates. -/
theorem claim10_theorem (v sv iv : Str) (m d sav : Option Str) (g1 g2 g3 g4 g5 : Str) :
    (∃ p, deviceConvertCore v (some sv) (some iv) m d sav =
      some (p ++ ( ", true)".toList))) ∧
    (∃ p, deviceConvertCore v (some sv) (some iv) m d none =
      some (p ++ ( ", false, true)".toList))) ∧
    (∃ p, devTestReplFull g1 g2 g3 g4 g5 = p ++ ( ", true)".toList)) ∧
    (∃ p, devTestReplNoSaved g1 g2 g3 g4 = p ++ ( ", false, true)".toList)) ∧
    (∃ p, devTestReplMin g1 g2 g5 = p ++ ( ", true)".toList)) := by
  refine ⟨?_, ?_, ?_, ?_, ?_⟩
  · rcases m with _ | c <;> rcases d with _ | e
    · exact ⟨( "".toList) ++ v ++ ( " := newTestDevice(\"".toList) ++ sv ++ ( "\", \"".toList)
        ++ iv ++ ( "\", ".toList) ++ sav.getD ( "false".toList),
        by simp only [deviceConvertCore, List.append_assoc]; rfl⟩
    · exact ⟨( "".toList) ++ v ++ ( " := newTestDevice(\"".toList) ++ sv ++ ( "\", \"".toList)
        ++ iv ++ ( "\", ".toList) ++ sav.getD ( "false".toList),
        by simp only [deviceConvertCore, List.append_assoc]; rfl⟩
    · exact ⟨( "".toList) ++ v ++ ( " := newTestDevice(\"".toList) ++ sv ++ ( "\", \"".toList)
        ++ iv ++ ( "\", ".toList) ++ sav.getD ( "false".toList),
        by simp only [deviceConvertCore, List.append_assoc]; rfl⟩
    · exact ⟨( "".toList) ++ v ++ ( " := newFullTestDevice(\"".toList) ++ sv
        ++ ( "\", \"".toList) ++ iv ++ ( "\", \"".toList) ++ c ++ ( "\", \"".toList) ++ e
        ++ ( "\", ".toList) ++ sav.getD ( "false".toList),
        by simp only [deviceConvertCore, List.append_assoc]; rfl⟩
  · rcases m with _ | c <;> rcases d with _ | e
    · exact ⟨( "".toList) ++ v ++ ( " := newTestDevice(\"".toList) ++ sv ++ ( "\", \"".toList)
        ++ iv ++ [ '"' ],
        by simp only [deviceConvertCore, List.append_assoc]; rfl⟩
    · exact ⟨( "".toList) ++ v ++ ( " := newTestDevice(\"".toList) ++ sv ++ ( "\", \"".toList)
        ++ iv ++ [ '"' ],
        by simp only [deviceConvertCore, List.append_assoc]; rfl⟩
    · exact ⟨( "".toList) ++ v ++ ( " := newTestDevice(\"".toList) ++ sv ++ ( "\", \"".toList)
        ++ iv ++ [ '"' ],
        by simp only [deviceConvertCore, List.append_assoc]; rfl⟩
    · exact ⟨( "".toList) ++ v ++ ( " := newFullTestDevice(\"".toList) ++ sv
        ++ ( "\", \"".toList) ++ iv ++ ( "\", \"".toList) ++ c ++ ( "\", \"".toList) ++ e
        ++ [ '"' ],
        by simp only [deviceConvertCore, List.append_assoc]; rfl⟩
  · exact ⟨( "newFullTestDevice(\"".toList) ++ g1 ++ ( "\", \"".toList) ++ g2
      ++ ( "\", \"".toList) ++ g3 ++ ( "\", \"".toList) ++ g4 ++ ( "\", ".toList) ++ g5,
      by simp only [devTestReplFull, List.append_assoc]⟩
  · exact ⟨( "newFullTestDevice(\"".toList) ++ g1 ++ ( "\", \"".toList) ++ g2
      ++ ( "\", \"".toList) ++ g3 ++ ( "\", \"".toList) ++ g4 ++ [ '"' ],
      by simp only [devTestReplNoSaved, List.append_assoc]; rfl⟩
  · exact ⟨( "newTestDevice(\"".toList) ++ g1 ++ ( "\", \"".toList) ++ g2 ++ ( "\", ".toList)
      ++ g5,
      by simp only [devTestReplMin, List.append_assoc]⟩

end PrintMaster
